import Mathlib

/-!
Verification development for the hdc-rs device-communication client.
The repository ships only example and smoke-test scripts; the client
library (`HdcClient`) they call is external, so the definitions below are
modelled from the specification of that client (spec.md), faithful to its
words, and the theorems settle the spec's claims against this model.
-/

namespace Hdc

/-- Modelled from the spec: the error taxonomy of §7.  The client library
itself is missing from the repository; every public operation fails with
exactly one of these kinds. -/
inductive HdcError where
  | DaemonUnreachable
  | ProtocolError
  | NoActiveDevice
  | UnknownDevice
  | ExecError
  | TransferError (reason : String)
  | TransferIncomplete
  | Timeout
  | IOError
deriving DecidableEq, Repr

/-- A remote or local file system, as a finite map from paths to byte
contents (bytes as `Nat`). -/
abbrev FileSys := List (String × List Nat)

/-- Look a path up in a file system. -/
def fsLookup : FileSys → String → Option (List Nat)
  | [], _ => none
  | (p, data) :: rest, q => if p = q then some data else fsLookup rest q

/-- Write (or overwrite) a path in a file system. -/
def fsWrite (fs : FileSys) (p : String) (data : List Nat) : FileSys :=
  (p, data) :: fs

/-- Modelled from the spec: the daemon the missing client talks to.  It is
either reachable or not, owns the current device list, answers shell
commands and free-form status requests, holds the device file system, and
serves log chunks for a given filter-argument string. -/
structure Daemon where
  reachable : Bool
  devices : List String
  shellOut : String → String → String
  statusText : String → String
  files : FileSys
  logChunks : String → List String

/-- Modelled from the spec: the missing `HdcClient` — a Daemon Endpoint
fixed at construction plus zero-or-one active-device binding (§3). -/
structure HdcClient where
  endpoint : String
  activeDevice : Option String
deriving DecidableEq, Repr

/-- Modelled from the spec: the missing `HdcClient` constructor — takes a
`host:port` string or, with no argument, relies on the well-known default
`127.0.0.1:8710` (§6); a fresh client has no active device. -/
def HdcClient.new (addr : Option String) : HdcClient :=
  { endpoint := addr.getD "127.0.0.1:8710", activeDevice := none }

/-- Modelled from the spec: the missing `list_targets` — one enumeration
exchange returning the daemon's Device Snapshot, `DaemonUnreachable` when
the transport cannot connect (§4.2). -/
def list_targets (d : Daemon) : Except HdcError (List String) :=
  if d.reachable then .ok d.devices else .error .DaemonUnreachable

/-- Modelled from the spec: the missing `connect_device` — sets the
client's active device after confirming the id appears in a fresh Device
Snapshot, otherwise `UnknownDevice` and the binding is unchanged (§4.2).
Returns the updated client paired with the error, if any. -/
def connect_device (c : HdcClient) (d : Daemon) (id : String) :
    HdcClient × Option HdcError :=
  match list_targets d with
  | .error e => (c, some e)
  | .ok snap =>
    if id ∈ snap then ({ c with activeDevice := some id }, none)
    else (c, some .UnknownDevice)

/-- Run-length encode a byte list into (byte, count) pairs; stands in for
the deflate-family stream compressor of §4.4, whose only property used by
the spec is that decompression is its exact inverse. -/
def rleEncode : List Nat → List (Nat × Nat)
  | [] => []
  | b :: rest =>
    match rleEncode rest with
    | [] => [(b, 1)]
    | (b', n) :: tail =>
      if b = b' then (b', n + 1) :: tail else (b, 1) :: (b', n) :: tail

/-- Decode a run-length encoded pair list back to bytes. -/
def rleDecode : List (Nat × Nat) → List Nat
  | [] => []
  | (b, n) :: tail => List.replicate n b ++ rleDecode tail

/-- Serialize (byte, count) pairs onto the wire. -/
def flattenPairs : List (Nat × Nat) → List Nat
  | [] => []
  | (b, n) :: tail => b :: n :: flattenPairs tail

/-- Parse wire bytes back into (byte, count) pairs. -/
def unflattenPairs : List Nat → List (Nat × Nat)
  | b :: n :: rest => (b, n) :: unflattenPairs rest
  | _ => []

/-- Modelled from the spec: stream compression of a chunk before
transmission (§4.4), here a run-length codec standing in for the missing
deflate implementation. -/
def compressBytes (l : List Nat) : List Nat :=
  flattenPairs (rleEncode l)

/-- Modelled from the spec: the symmetric decompression applied on the
receiving side (§4.4). -/
def decompressBytes (l : List Nat) : List Nat :=
  rleDecode (unflattenPairs l)

/-- The fixed chunk size of the streaming phase; its value is a
performance detail, not a protocol guarantee (§4.4). -/
def chunkSize : Nat := 4096

/-- Split a byte list into `chunkSize`-byte chunks, fuelled by the list
length. -/
def chunksAux : Nat → List Nat → List (List Nat)
  | 0, _ => []
  | _, [] => []
  | fuel + 1, l => l.take chunkSize :: chunksAux fuel (l.drop chunkSize)

/-- Split source bytes into the fixed-size chunks of the streaming
phase (§4.4). -/
def toChunks (l : List Nat) : List (List Nat) :=
  chunksAux l.length l

/-- Source/destination paths and the recognized transfer options of a
Transfer Request (§3). -/
structure TransferConfig where
  compress : Bool
  preserve_timestamp : Bool
deriving DecidableEq, Repr

/-- Encode one chunk for the wire, compressing it when the option is
set (§4.4). -/
def encodeChunk (cfg : TransferConfig) (ch : List Nat) : List Nat :=
  if cfg.compress then compressBytes ch else ch

/-- Decode one received frame, decompressing symmetrically (§4.4). -/
def decodeChunk (cfg : TransferConfig) (fr : List Nat) : List Nat :=
  if cfg.compress then decompressBytes fr else fr

/-- Modelled from the spec: the sending half of the missing File Transfer
Engine's Streaming phase — read the source in fixed-size chunks, encode
each for the wire (§4.4). -/
def encodeTransfer (cfg : TransferConfig) (data : List Nat) : List (List Nat) :=
  (toChunks data).map (encodeChunk cfg)

/-- Reassemble the received frames into the destination bytes (§4.4). -/
def decodeFrames (cfg : TransferConfig) (frames : List (List Nat)) : List Nat :=
  (frames.map (decodeChunk cfg)).flatten

/-- Modelled from the spec: the receiving half of the missing File
Transfer Engine — reassemble frames, then Verify the byte count against
the declared source size; a mismatch yields `TransferIncomplete` (§4.4). -/
def receiveTransfer (cfg : TransferConfig) (frames : List (List Nat))
    (declared : Nat) : Except HdcError (List Nat) :=
  let bytes := decodeFrames cfg frames
  if bytes.length = declared then .ok bytes else .error .TransferIncomplete

/-- The explicit tagged transfer state of §4.4's state machine. -/
inductive TransferState where
  | Init
  | Negotiate
  | Streaming
  | Verify
  | Done
  | Failed
deriving DecidableEq, Repr

/-- Modelled from the spec: the missing `file_send` — push a local file to
a device path through Init, Negotiate, Streaming and Verify; atomic from
the caller's viewpoint, returning a human-readable status string and the
updated daemon on success (§4.4).  The second component counts transport
connections opened by the call. -/
def file_send (c : HdcClient) (localFs : FileSys) (d : Daemon)
    (src dst : String) (cfg : TransferConfig) :
    Except HdcError (String × Daemon) × Nat :=
  match c.activeDevice with
  | none => (.error .NoActiveDevice, 0)
  | some _ =>
    if src = "" ∨ dst = "" then (.error (.TransferError "empty path"), 0)
    else
      match fsLookup localFs src with
      | none => (.error (.TransferError "source not found"), 0)
      | some data =>
        if d.reachable then
          match receiveTransfer cfg (encodeTransfer cfg data) data.length with
          | .ok bytes =>
            (.ok ("transferred " ++ toString bytes.length ++ " bytes to " ++ dst,
              { d with files := fsWrite d.files dst bytes }), 1)
          | .error e => (.error e, 1)
        else (.error .DaemonUnreachable, 1)

/-- Modelled from the spec: the missing `file_recv` — the symmetric pull
variant of the transfer state machine with source and destination
swapped (§4.4); returns the status string and the updated local file
system on success. -/
def file_recv (c : HdcClient) (localFs : FileSys) (d : Daemon)
    (src dst : String) (cfg : TransferConfig) :
    Except HdcError (String × FileSys) × Nat :=
  match c.activeDevice with
  | none => (.error .NoActiveDevice, 0)
  | some _ =>
    if src = "" ∨ dst = "" then (.error (.TransferError "empty path"), 0)
    else
      if d.reachable then
        match fsLookup d.files src with
        | none => (.error (.TransferError "source not found"), 1)
        | some data =>
          match receiveTransfer cfg (encodeTransfer cfg data) data.length with
          | .ok bytes =>
            (.ok ("transferred " ++ toString bytes.length ++ " bytes to " ++ dst,
              fsWrite localFs dst bytes), 1)
          | .error e => (.error e, 1)
      else (.error .DaemonUnreachable, 1)

/-- Modelled from the spec: the missing `shell` — a per-device command
exchange returning the concatenated remote output (§4.3); fails with
`NoActiveDevice`, touching no transport, when no device is bound (§4.3
failure policy). -/
def shell (c : HdcClient) (d : Daemon) (cmd : String) :
    Except HdcError String × Nat :=
  match c.activeDevice with
  | none => (.error .NoActiveDevice, 0)
  | some dev =>
    if d.reachable then (.ok (d.shellOut dev cmd), 1)
    else (.error .DaemonUnreachable, 1)

/-- Modelled from the spec: the missing `fport` — a single
request/response exchange whose free-form status text is passed through
unchanged (§4.3). -/
def fport (c : HdcClient) (d : Daemon) (localSpec remoteSpec : String) :
    Except HdcError String × Nat :=
  match c.activeDevice with
  | none => (.error .NoActiveDevice, 0)
  | some _ =>
    if d.reachable then
      (.ok (d.statusText ("fport " ++ localSpec ++ " " ++ remoteSpec)), 1)
    else (.error .DaemonUnreachable, 1)

/-- Modelled from the spec: the missing `rport` — the reverse forwarding
exchange (§4.3). -/
def rport (c : HdcClient) (d : Daemon) (localSpec remoteSpec : String) :
    Except HdcError String × Nat :=
  match c.activeDevice with
  | none => (.error .NoActiveDevice, 0)
  | some _ =>
    if d.reachable then
      (.ok (d.statusText ("rport " ++ localSpec ++ " " ++ remoteSpec)), 1)
    else (.error .DaemonUnreachable, 1)

/-- Modelled from the spec: the missing `fport_remove` — removes a forward
rule referenced by its exact spec pair (§4.3). -/
def fport_remove (c : HdcClient) (d : Daemon) (ruleSpec : String) :
    Except HdcError String × Nat :=
  match c.activeDevice with
  | none => (.error .NoActiveDevice, 0)
  | some _ =>
    if d.reachable then
      (.ok (d.statusText ("fport rm " ++ ruleSpec)), 1)
    else (.error .DaemonUnreachable, 1)

/-- Modelled from the spec: the missing `install` passthrough — a single
exchange carrying package paths and flags, returning the daemon's response
text (§4.3). -/
def install (c : HdcClient) (d : Daemon) (packages : List String)
    (replace shared : Bool) : Except HdcError String × Nat :=
  match c.activeDevice with
  | none => (.error .NoActiveDevice, 0)
  | some _ =>
    if d.reachable then
      (.ok (d.statusText ("install "
        ++ (if replace then "-r " else "")
        ++ (if shared then "-s " else "")
        ++ String.intercalate " " packages)), 1)
    else (.error .DaemonUnreachable, 1)

/-- Modelled from the spec: the missing `uninstall` passthrough (§4.3). -/
def uninstall (c : HdcClient) (d : Daemon) (package : String)
    (keep_data : Bool) : Except HdcError String × Nat :=
  match c.activeDevice with
  | none => (.error .NoActiveDevice, 0)
  | some _ =>
    if d.reachable then
      (.ok (d.statusText ("uninstall "
        ++ (if keep_data then "-k " else "") ++ package)), 1)
    else (.error .DaemonUnreachable, 1)

/-- Modelled from the spec: the missing one-shot `hilog` — reads the
bounded log dump for the given filter arguments and concatenates it
(§4.5). -/
def hilog (c : HdcClient) (d : Daemon) (args : String) :
    Except HdcError String × Nat :=
  match c.activeDevice with
  | none => (.error .NoActiveDevice, 0)
  | some _ =>
    if d.reachable then (.ok (String.join (d.logChunks args)), 1)
    else (.error .DaemonUnreachable, 1)

/-- Modelled from the spec: the read loop of the missing `hilog_stream` —
invokes the handler once per received chunk in arrival order; stops after
the first `false`, after a handler-raised error (propagated as the second
component), or when the chunk stream ends because the connection closed
(§4.5).  Returns the chunks the handler was invoked on. -/
def streamLoop (handler : String → Except String Bool) :
    List String → List String × Option String
  | [] => ([], none)
  | chunk :: rest =>
    match handler chunk with
    | .error e => ([chunk], some e)
    | .ok false => ([chunk], none)
    | .ok true =>
      let r := streamLoop handler rest
      (chunk :: r.1, r.2)

/-- Modelled from the spec: the missing `hilog_stream` — opens an
unbounded log subscription for the filter arguments and runs the consumer
loop; `NoActiveDevice`, with no transport touched, when no device is
bound (§4.3, §4.5). -/
def hilog_stream (c : HdcClient) (d : Daemon)
    (handler : String → Except String Bool) (args : String) :
    Except HdcError (List String × Option String) × Nat :=
  match c.activeDevice with
  | none => (.error .NoActiveDevice, 0)
  | some _ =>
    if d.reachable then (.ok (streamLoop handler (d.logChunks args)), 1)
    else (.error .DaemonUnreachable, 1)

/-- Modelled from the spec: the before/after diff the missing
`monitor_devices` computes for caller convenience — added and removed
device identifiers between two consecutive Device Snapshots, compared by
exact string equality (§4.2, §8). -/
def snapshotDiff (s1 s2 : List String) : List String × List String :=
  (s2.filter (fun id => decide (id ∉ s1)),
   s1.filter (fun id => decide (id ∉ s2)))

/-- Modelled from the spec: the missing `monitor_devices` loop — each tick
polls a fresh Device Snapshot (the successive snapshots the daemon would
return are the `polls` argument), invokes the callback with it
unconditionally, stops when the callback returns a false-equivalent value
or raises, and otherwise sleeps the configured interval and
continues (§4.2).  Returns the snapshots delivered to the callback, the
sleep durations performed, and the propagated callback error, if any. -/
def monitor_devices (callback : List String → Except String Bool)
    (interval : Nat) :
    List (List String) → List (List String) × List Nat × Option String
  | [] => ([], [], none)
  | snap :: rest =>
    match callback snap with
    | .error e => ([snap], [], some e)
    | .ok false => ([snap], [], none)
    | .ok true =>
      let r := monitor_devices callback interval rest
      (snap :: r.1, interval :: r.2.1, r.2.2)

/-- Modelled from the spec: the missing `wait_for_device` with no timeout
— polls `list_targets` on a fixed interval until the snapshot is
non-empty and returns the first discovered identifier (§4.2).  The
successive polled snapshots are the argument; `none` means every observed
poll was empty and the loop is still blocking — with no timeout it can
never produce the `Timeout` outcome. -/
def wait_for_device : List (List String) → Option String
  | [] => none
  | [] :: rest => wait_for_device rest
  | (id :: _) :: _ => some id

/-- A daemon holding the given device list, used to re-check an identifier
against a fresh snapshot. -/
def daemonWith (devices : List String) : Daemon :=
  { reachable := true
    devices := devices
    shellOut := fun _ _ => ""
    statusText := fun _ => ""
    files := []
    logChunks := fun _ => [] }

/-- A concrete daemon used to instantiate theorems at concrete inputs. -/
def demoDaemon : Daemon :=
  { reachable := true
    devices := ["dev1"]
    shellOut := fun _ _ => "/ \n"
    statusText := fun _ => "OK"
    files := []
    logChunks := fun _ => ["chunk0", "chunk1"] }

theorem rleDecode_rleEncode (l : List Nat) : rleDecode (rleEncode l) = l := by
  induction l with
  | nil => rfl
  | cons b rest ih =>
    rw [rleEncode]
    cases h : rleEncode rest with
    | nil =>
      rw [h] at ih
      simp only [rleDecode] at ih
      simp [rleDecode, ← ih]
    | cons p tail =>
      obtain ⟨b', n⟩ := p
      rw [h] at ih
      by_cases hb : b = b'
      · subst hb
        simp only [if_pos rfl, rleDecode, List.replicate_succ] at ih ⊢
        simp [ih]
      · simp only [if_neg hb]
        rw [rleDecode, ih]
        simp

theorem unflattenPairs_flattenPairs (ps : List (Nat × Nat)) :
    unflattenPairs (flattenPairs ps) = ps := by
  induction ps with
  | nil => rfl
  | cons p tail ih =>
    obtain ⟨b, n⟩ := p
    simp [flattenPairs, unflattenPairs, ih]

theorem decompressBytes_compressBytes (l : List Nat) :
    decompressBytes (compressBytes l) = l := by
  unfold decompressBytes compressBytes
  rw [unflattenPairs_flattenPairs, rleDecode_rleEncode]

theorem flatten_chunksAux (n : Nat) (l : List Nat) (h : l.length ≤ n) :
    (chunksAux n l).flatten = l := by
  induction n generalizing l with
  | zero =>
    have hl : l = [] := List.eq_nil_of_length_eq_zero (Nat.le_zero.mp h)
    simp [hl, chunksAux]
  | succ n ih =>
    cases l with
    | nil => rfl
    | cons a t =>
      rw [chunksAux, List.flatten_cons, ih]
      · exact List.take_append_drop chunkSize (a :: t)
      · rw [List.length_drop]
        simp only [List.length_cons] at h ⊢
        have h1 : (1 : Nat) ≤ chunkSize := by norm_num [chunkSize]
        omega
      · simp

theorem flatten_toChunks (l : List Nat) : (toChunks l).flatten = l :=
  flatten_chunksAux l.length l le_rfl

theorem decodeChunk_encodeChunk (cfg : TransferConfig) (ch : List Nat) :
    decodeChunk cfg (encodeChunk cfg ch) = ch := by
  unfold decodeChunk encodeChunk
  cases hc : cfg.compress with
  | true => simp [decompressBytes_compressBytes]
  | false => simp

theorem decodeFrames_encodeTransfer (cfg : TransferConfig) (data : List Nat) :
    decodeFrames cfg (encodeTransfer cfg data) = data := by
  unfold decodeFrames encodeTransfer
  rw [List.map_map]
  have hmap : (toChunks data).map (decodeChunk cfg ∘ encodeChunk cfg)
      = (toChunks data).map id := by
    apply List.map_congr_left
    intro ch _
    exact decodeChunk_encodeChunk cfg ch
  rw [hmap, List.map_id, flatten_toChunks]

theorem receiveTransfer_encodeTransfer (cfg : TransferConfig)
    (data : List Nat) :
    receiveTransfer cfg (encodeTransfer cfg data) data.length = .ok data := by
  unfold receiveTransfer
  rw [decodeFrames_encodeTransfer]
  simp

theorem fsLookup_fsWrite (fs : FileSys) (p : String) (data : List Nat) :
    fsLookup (fsWrite fs p data) p = some data := by
  simp [fsLookup, fsWrite]

/-- C1: `connect_device id` succeeds — setting the active device to `id` —
iff `id` is in the fresh snapshot returned by `list_targets` at call time;
when `id` is absent it fails with `UnknownDevice` and the client is
unchanged. -/
theorem connect_device_spec (c : HdcClient) (d : Daemon) (id : String)
    (snap : List String) (h : list_targets d = .ok snap) :
    ((connect_device c d id).2 = none ↔ id ∈ snap)
    ∧ (id ∈ snap →
        connect_device c d id = ({ c with activeDevice := some id }, none))
    ∧ (id ∉ snap →
        connect_device c d id = (c, some .UnknownDevice)) := by
  unfold connect_device
  rw [h]
  by_cases hm : id ∈ snap
  · simp [hm]
  · simp [hm]

/-- Instantiation of `connect_device_spec` at a concrete client, daemon and
device identifier. -/
theorem connect_device_spec_witness :
    connect_device (HdcClient.new none) demoDaemon "dev1"
      = ({ HdcClient.new none with activeDevice := some "dev1" }, none) :=
  (connect_device_spec (HdcClient.new none) demoDaemon "dev1" ["dev1"]
    rfl).2.1 (by decide)

/-- C2: every per-device operation — shell, file_send, file_recv, fport,
rport, fport_remove, install, uninstall, hilog, hilog_stream — invoked on
a client whose active-device binding was never set fails immediately with
`NoActiveDevice`, and the failing call opens no transport connection. -/
theorem noActiveDevice_fails_without_transport (c : HdcClient) (d : Daemon)
    (localFs : FileSys) (cmd src dst ls rs ruleSpec pkg args : String)
    (packages : List String) (cfg : TransferConfig) (r s k : Bool)
    (handler : String → Except String Bool)
    (h : c.activeDevice = none) :
    shell c d cmd = (.error .NoActiveDevice, 0)
    ∧ file_send c localFs d src dst cfg = (.error .NoActiveDevice, 0)
    ∧ file_recv c localFs d src dst cfg = (.error .NoActiveDevice, 0)
    ∧ fport c d ls rs = (.error .NoActiveDevice, 0)
    ∧ rport c d ls rs = (.error .NoActiveDevice, 0)
    ∧ fport_remove c d ruleSpec = (.error .NoActiveDevice, 0)
    ∧ install c d packages r s = (.error .NoActiveDevice, 0)
    ∧ uninstall c d pkg k = (.error .NoActiveDevice, 0)
    ∧ hilog c d args = (.error .NoActiveDevice, 0)
    ∧ hilog_stream c d handler args = (.error .NoActiveDevice, 0) := by
  refine ⟨?_, ?_, ?_, ?_, ?_, ?_, ?_, ?_, ?_, ?_⟩ <;>
    simp [shell, file_send, file_recv, fport, rport, fport_remove, install,
      uninstall, hilog, hilog_stream, h]

/-- Instantiation of `noActiveDevice_fails_without_transport` at a fresh
client and concrete arguments. -/
theorem noActiveDevice_fails_witness :
    shell (HdcClient.new none) demoDaemon "pwd" = (.error .NoActiveDevice, 0) :=
  (noActiveDevice_fails_without_transport (HdcClient.new none) demoDaemon []
    "pwd" "a.txt" "/data/a.txt" "tcp:8080" "tcp:8080" "tcp:8080 tcp:8080"
    "com.example.app" "" ["app.hap"] ⟨false, false⟩ true false false
    (fun _ => .ok true) rfl).1

/-- C3: pushing local file `src` to device path `dstRemote` and then
pulling `dstRemote` back to local path `dstLocal`, with the same compress
flag, both succeed and leave `dstLocal` byte-identical to `src`. -/
theorem file_roundtrip (c : HdcClient) (dev : String) (localFs : FileSys)
    (d : Daemon) (src dstRemote dstLocal : String) (data : List Nat)
    (cfg : TransferConfig)
    (hc : c.activeDevice = some dev)
    (hsrc : fsLookup localFs src = some data)
    (h1 : src ≠ "") (h2 : dstRemote ≠ "") (h3 : dstLocal ≠ "")
    (hr : d.reachable = true) :
    ∃ d' : Daemon, ∃ status1 status2 : String, ∃ localFs' : FileSys,
      file_send c localFs d src dstRemote cfg = (.ok (status1, d'), 1)
      ∧ file_recv c localFs d' dstRemote dstLocal cfg = (.ok (status2, localFs'), 1)
      ∧ fsLookup localFs' dstLocal = some data := by
  refine ⟨{ d with files := fsWrite d.files dstRemote data },
    "transferred " ++ toString data.length ++ " bytes to " ++ dstRemote,
    "transferred " ++ toString data.length ++ " bytes to " ++ dstLocal,
    fsWrite localFs dstLocal data, ?_, ?_, ?_⟩
  · simp [file_send, hc, h1, h2, hsrc, hr, receiveTransfer_encodeTransfer]
  · simp [file_recv, hc, h2, h3, hr, fsLookup_fsWrite,
      receiveTransfer_encodeTransfer]
  · exact fsLookup_fsWrite localFs dstLocal data

/-- Instantiation of `file_roundtrip` at a concrete file and both ends of
a compressed transfer. -/
theorem file_roundtrip_witness :
    ∃ d' : Daemon, ∃ status1 status2 : String, ∃ localFs' : FileSys,
      file_send ⟨"127.0.0.1:8710", some "dev1"⟩ [("test.txt", [1, 2, 2, 3])]
          demoDaemon "test.txt" "/data/t.txt" ⟨true, false⟩
        = (.ok (status1, d'), 1)
      ∧ file_recv ⟨"127.0.0.1:8710", some "dev1"⟩ [("test.txt", [1, 2, 2, 3])]
          d' "/data/t.txt" "out.txt" ⟨true, false⟩
        = (.ok (status2, localFs'), 1)
      ∧ fsLookup localFs' "out.txt" = some [1, 2, 2, 3] :=
  file_roundtrip ⟨"127.0.0.1:8710", some "dev1"⟩ "dev1"
    [("test.txt", [1, 2, 2, 3])] demoDaemon "test.txt" "/data/t.txt"
    "out.txt" [1, 2, 2, 3] ⟨true, false⟩ rfl (by decide) (by decide)
    (by decide) (by decide) rfl

/-- C4: a transfer reports either full success (a status string) or an
error, never a partial outcome; the Verify step returns the reassembled
bytes exactly when their count matches the declared source size and fails
with `TransferIncomplete` on any mismatch. -/
theorem transfer_atomic_verify (cfg : TransferConfig)
    (frames : List (List Nat)) (declared : Nat) (c : HdcClient)
    (localFs : FileSys) (d : Daemon) (src dst : String) :
    ((decodeFrames cfg frames).length = declared →
      receiveTransfer cfg frames declared = .ok (decodeFrames cfg frames))
    ∧ ((decodeFrames cfg frames).length ≠ declared →
      receiveTransfer cfg frames declared = .error .TransferIncomplete)
    ∧ ((∃ status d', (file_send c localFs d src dst cfg).1 = .ok (status, d'))
      ∨ (∃ e, (file_send c localFs d src dst cfg).1 = .error e))
    ∧ ((∃ status fs', (file_recv c localFs d src dst cfg).1 = .ok (status, fs'))
      ∨ (∃ e, (file_recv c localFs d src dst cfg).1 = .error e)) := by
  refine ⟨?_, ?_, ?_, ?_⟩
  · intro h
    simp [receiveTransfer, h]
  · intro h
    simp [receiveTransfer, h]
  · cases hfs : (file_send c localFs d src dst cfg).1 with
    | ok v =>
      obtain ⟨st, dd⟩ := v
      exact .inl ⟨st, dd, rfl⟩
    | error e => exact .inr ⟨e, rfl⟩
  · cases hfr : (file_recv c localFs d src dst cfg).1 with
    | ok v =>
      obtain ⟨st, fs'⟩ := v
      exact .inl ⟨st, fs', rfl⟩
    | error e => exact .inr ⟨e, rfl⟩

/-- Instantiation of `transfer_atomic_verify` at a frame whose byte count
disagrees with the declared size. -/
theorem transfer_atomic_verify_witness :
    receiveTransfer ⟨false, false⟩ [[1, 2]] 3 = .error .TransferIncomplete :=
  (transfer_atomic_verify ⟨false, false⟩ [[1, 2]] 3 (HdcClient.new none) []
    demoDaemon "a" "b").2.1 (by decide)

theorem streamLoop_stops_false (handler : String → Except String Bool)
    (pre post : List String) (chunk : String)
    (hpre : ∀ x ∈ pre, handler x = .ok true)
    (hstop : handler chunk = .ok false) :
    streamLoop handler (pre ++ chunk :: post) = (pre ++ [chunk], none) := by
  induction pre with
  | nil => simp [streamLoop, hstop]
  | cons x xs ih =>
    have hx : handler x = .ok true := hpre x (by simp)
    have ih' := ih (fun y hy => hpre y (by simp [hy]))
    simp [streamLoop, hx, ih']

theorem streamLoop_stops_error (handler : String → Except String Bool)
    (pre post : List String) (chunk : String) (e : String)
    (hpre : ∀ x ∈ pre, handler x = .ok true)
    (hstop : handler chunk = .error e) :
    streamLoop handler (pre ++ chunk :: post) = (pre ++ [chunk], some e) := by
  induction pre with
  | nil => simp [streamLoop, hstop]
  | cons x xs ih =>
    have hx : handler x = .ok true := hpre x (by simp)
    have ih' := ih (fun y hy => hpre y (by simp [hy]))
    simp [streamLoop, hx, ih']

theorem streamLoop_take (handler : String → Except String Bool)
    (l : List String) :
    (streamLoop handler l).1 = l.take (streamLoop handler l).1.length := by
  induction l with
  | nil => rfl
  | cons chunk rest ih =>
    cases hh : handler chunk with
    | error e => simp [streamLoop, hh]
    | ok b =>
      cases b with
      | false => simp [streamLoop, hh]
      | true =>
        simp only [streamLoop, hh]
        simp only [List.length_cons, List.take_succ_cons]
        exact congrArg (List.cons chunk) ih

/-- C5: `hilog_stream` invokes the handler once per received chunk in
arrival order (the invoked chunks are an initial segment of the arriving
ones); after the first `false` return it closes and returns with no
further invocations; it also terminates — propagating the error — when
the handler raises, and returns when the chunk stream ends because the
connection closed. -/
theorem hilog_stream_spec (c : HdcClient) (d : Daemon) (dev : String)
    (handler : String → Except String Bool) (args : String)
    (pre post : List String) (chunk : String)
    (hc : c.activeDevice = some dev) (hr : d.reachable = true) :
    ((streamLoop handler (d.logChunks args)).1
      = (d.logChunks args).take (streamLoop handler (d.logChunks args)).1.length)
    ∧ (d.logChunks args = pre ++ chunk :: post →
        (∀ x ∈ pre, handler x = .ok true) → handler chunk = .ok false →
        hilog_stream c d handler args = (.ok (pre ++ [chunk], none), 1))
    ∧ (d.logChunks args = pre ++ chunk :: post →
        (∀ x ∈ pre, handler x = .ok true) → ∀ e, handler chunk = .error e →
        hilog_stream c d handler args = (.ok (pre ++ [chunk], some e), 1))
    ∧ (d.logChunks args = [] →
        hilog_stream c d handler args = (.ok ([], none), 1)) := by
  refine ⟨streamLoop_take handler (d.logChunks args), ?_, ?_, ?_⟩
  · intro hl hpre hstop
    simp [hilog_stream, hc, hr, hl,
      streamLoop_stops_false handler pre post chunk hpre hstop]
  · intro hl hpre e hstop
    simp [hilog_stream, hc, hr, hl,
      streamLoop_stops_error handler pre post chunk e hpre hstop]
  · intro hl
    simp [hilog_stream, hc, hr, hl, streamLoop]

/-- A handler that requests a stop on the chunk `"chunk0"`. -/
def demoHandler (s : String) : Except String Bool :=
  .ok (s != "chunk0")

/-- Instantiation of `hilog_stream_spec`: the handler stops on the first
chunk of `demoDaemon`'s stream and is never invoked again. -/
theorem hilog_stream_spec_witness :
    hilog_stream ⟨"127.0.0.1:8710", some "dev1"⟩ demoDaemon demoHandler ""
      = (.ok (["chunk0"], none), 1) := by
  simpa using (hilog_stream_spec ⟨"127.0.0.1:8710", some "dev1"⟩ demoDaemon
    "dev1" demoHandler "" [] ["chunk1"] "chunk0" rfl rfl).2.1 rfl
    (by intro x hx; cases hx) rfl

theorem monitor_all_true (callback : List String → Except String Bool)
    (interval : Nat) (polls : List (List String))
    (h : ∀ x ∈ polls, callback x = .ok true) :
    monitor_devices callback interval polls
      = (polls, List.replicate polls.length interval, none) := by
  induction polls with
  | nil => rfl
  | cons snap rest ih =>
    have hs : callback snap = .ok true := h snap (by simp)
    have ih' := ih (fun y hy => h y (by simp [hy]))
    simp [monitor_devices, hs, ih', List.replicate_succ]

theorem monitor_stops_false (callback : List String → Except String Bool)
    (interval : Nat) (pre post : List (List String)) (snap : List String)
    (hpre : ∀ x ∈ pre, callback x = .ok true)
    (hstop : callback snap = .ok false) :
    monitor_devices callback interval (pre ++ snap :: post)
      = (pre ++ [snap], List.replicate pre.length interval, none) := by
  induction pre with
  | nil => simp [monitor_devices, hstop]
  | cons x xs ih =>
    have hx : callback x = .ok true := hpre x (by simp)
    have ih' := ih (fun y hy => hpre y (by simp [hy]))
    simp [monitor_devices, hx, ih', List.replicate_succ]

theorem monitor_stops_error (callback : List String → Except String Bool)
    (interval : Nat) (pre post : List (List String)) (snap : List String)
    (e : String)
    (hpre : ∀ x ∈ pre, callback x = .ok true)
    (hstop : callback snap = .error e) :
    monitor_devices callback interval (pre ++ snap :: post)
      = (pre ++ [snap], List.replicate pre.length interval, some e) := by
  induction pre with
  | nil => simp [monitor_devices, hstop]
  | cons x xs ih =>
    have hx : callback x = .ok true := hpre x (by simp)
    have ih' := ih (fun y hy => hpre y (by simp [hy]))
    simp [monitor_devices, hx, ih', List.replicate_succ]

theorem monitor_sleeps (callback : List String → Except String Bool)
    (interval : Nat) (polls : List (List String)) :
    ∀ t ∈ (monitor_devices callback interval polls).2.1, t = interval := by
  induction polls with
  | nil => intro t ht; cases ht
  | cons snap rest ih =>
    intro t ht
    cases hs : callback snap with
    | error e => simp [monitor_devices, hs] at ht
    | ok b =>
      cases b with
      | false => simp [monitor_devices, hs] at ht
      | true =>
        simp only [monitor_devices, hs, List.mem_cons] at ht
        rcases ht with h1 | h2
        · exact h1
        · exact ih t h2

/-- C6: `monitor_devices` invokes the callback exactly once per polling
tick with the freshly polled snapshot, regardless of whether it changed;
it sleeps at least the configured interval between invocations, returns at
the callback's first false return or raised error, and otherwise continues
through every tick. -/
theorem monitor_devices_spec (callback : List String → Except String Bool)
    (interval : Nat) (polls pre post : List (List String))
    (snap : List String) :
    ((∀ x ∈ polls, callback x = .ok true) →
      monitor_devices callback interval polls
        = (polls, List.replicate polls.length interval, none))
    ∧ (∀ t ∈ (monitor_devices callback interval polls).2.1, interval ≤ t)
    ∧ (polls = pre ++ snap :: post →
        (∀ x ∈ pre, callback x = .ok true) → callback snap = .ok false →
        monitor_devices callback interval polls
          = (pre ++ [snap], List.replicate pre.length interval, none))
    ∧ (polls = pre ++ snap :: post →
        (∀ x ∈ pre, callback x = .ok true) → ∀ e, callback snap = .error e →
        monitor_devices callback interval polls
          = (pre ++ [snap], List.replicate pre.length interval, some e)) := by
  refine ⟨monitor_all_true callback interval polls, ?_, ?_, ?_⟩
  · intro t ht
    exact le_of_eq (monitor_sleeps callback interval polls t ht).symm
  · intro hp hpre hstop
    rw [hp]
    exact monitor_stops_false callback interval pre post snap hpre hstop
  · intro hp hpre e hstop
    rw [hp]
    exact monitor_stops_error callback interval pre post snap e hpre hstop

/-- A device-monitoring callback that requests a stop on an empty
snapshot. -/
def demoCallback (snap : List String) : Except String Bool :=
  .ok (!snap.isEmpty)

/-- Instantiation of `monitor_devices_spec`: one tick delivers `["a"]`,
the next delivers `[]` and the callback stops the loop after one sleep of
the configured interval. -/
theorem monitor_devices_spec_witness :
    monitor_devices demoCallback 2 [["a"], []]
      = ([["a"], []], [2], none) := by
  simpa using (monitor_devices_spec demoCallback 2 [["a"], []] [["a"]] []
    []).2.2.1 rfl
    (by intro x hx; rw [List.mem_singleton] at hx; subst hx; rfl) rfl

/-- C7: for any two consecutively delivered Device Snapshots `s1`, `s2`,
the computed diff satisfies added = s2 ∖ s1 and removed = s1 ∖ s2, as set
difference over device identifiers compared by exact string equality. -/
theorem snapshotDiff_spec (s1 s2 : List String) (id : String) :
    (id ∈ (snapshotDiff s1 s2).1 ↔ id ∈ s2 ∧ id ∉ s1)
    ∧ (id ∈ (snapshotDiff s1 s2).2 ↔ id ∈ s1 ∧ id ∉ s2) := by
  constructor
  · simp [snapshotDiff, List.mem_filter]
  · simp [snapshotDiff, List.mem_filter]

/-- C8: a client constructed with no address argument is bound to the
well-known default daemon endpoint `127.0.0.1:8710`, exactly as if
constructed with that address, and no operation — `connect_device` being
the only state-updating one — ever changes a client's endpoint. -/
theorem hdcClient_default_endpoint :
    HdcClient.new none = HdcClient.new (some "127.0.0.1:8710")
    ∧ (HdcClient.new none).endpoint = "127.0.0.1:8710"
    ∧ ∀ (c : HdcClient) (d : Daemon) (id : String),
        ((connect_device c d id).1).endpoint = c.endpoint := by
  refine ⟨rfl, rfl, ?_⟩
  intro c d id
  unfold connect_device
  cases list_targets d with
  | error e => rfl
  | ok snap => by_cases h : id ∈ snap <;> simp [h]

/-- C9: `list_targets` on a reachable daemon returns the daemon's device
list itself — an ordered, indexable sequence with the first discovered
device at index 0 — and in particular returns the empty list, not an
error, when the daemon reports no devices; only an unreachable daemon
makes it fail. -/
theorem list_targets_spec (d : Daemon) :
    (d.reachable = true → list_targets d = .ok d.devices)
    ∧ (d.reachable = true → d.devices = [] → list_targets d = .ok [])
    ∧ (d.reachable = false → list_targets d = .error .DaemonUnreachable) := by
  refine ⟨?_, ?_, ?_⟩
  · intro h
    simp [list_targets, h]
  · intro h he
    simp [list_targets, h, he]
  · intro h
    simp [list_targets, h]

/-- Instantiation of `list_targets_spec` at a reachable daemon with no
devices: the result is the empty list, not an error. -/
theorem list_targets_spec_witness :
    list_targets (daemonWith []) = .ok [] :=
  (list_targets_spec (daemonWith [])).2.1 rfl rfl

/-- C10: `wait_for_device` with no timeout never produces the `Timeout`
outcome: it keeps polling while every observed snapshot is empty, and as
soon as a snapshot is non-empty it returns an identifier that is a member
of that non-empty snapshot and that an immediately following
`connect_device` against that snapshot accepts. -/
theorem wait_for_device_spec (polls : List (List String)) (c : HdcClient) :
    (wait_for_device polls = none ↔ ∀ s ∈ polls, s = [])
    ∧ (∀ id, wait_for_device polls = some id →
        ∃ snap, snap ∈ polls ∧ snap ≠ [] ∧ id ∈ snap ∧
          connect_device c (daemonWith snap) id
            = ({ c with activeDevice := some id }, none)) := by
  constructor
  · induction polls with
    | nil => simp [wait_for_device]
    | cons s rest ih =>
      cases s with
      | nil => simp [wait_for_device, ih]
      | cons x tl =>
        simp only [wait_for_device]
        exact ⟨fun h => absurd h (Option.some_ne_none x),
          fun h => absurd (h (x :: tl) (List.mem_cons_self _ _))
            (List.cons_ne_nil x tl)⟩
  · induction polls with
    | nil =>
      intro id h
      cases h
    | cons s rest ih =>
      cases s with
      | nil =>
        intro id h
        simp only [wait_for_device] at h
        obtain ⟨snap, hmem, hne, hid, hconn⟩ := ih id h
        exact ⟨snap, by simp [hmem], hne, hid, hconn⟩
      | cons x tl =>
        intro id h
        simp only [wait_for_device, Option.some_inj] at h
        subst h
        refine ⟨x :: tl, by simp, by simp, by simp, ?_⟩
        simp [connect_device, list_targets, daemonWith]

/-- Instantiation of `wait_for_device_spec`: after one empty poll the
snapshot `["d1"]` appears and its first identifier is accepted by
`connect_device`. -/
theorem wait_for_device_spec_witness :
    ∃ snap, snap ∈ [([] : List String), ["d1"]] ∧ snap ≠ [] ∧ "d1" ∈ snap ∧
      connect_device (HdcClient.new none) (daemonWith snap) "d1"
        = ({ HdcClient.new none with activeDevice := some "d1" }, none) :=
  (wait_for_device_spec [[], ["d1"]] (HdcClient.new none)).2 "d1" rfl

end Hdc
